import Mathlib

/-!
Verification of the european-alternatives catalogue core: the trust-score
engine (src/utils/trustScore.ts), the browse-page filter/search/sort pipeline
(BrowsePage component), and the US vendor-comparison validation tool
(scripts/validate-us-vendor-comparisons.cjs), shallowly embedded in Lean.

Country codes, categories, pricing tiers, openness levels, severities and
status values are modelled as strings, matching the runtime representation
the TypeScript code actually branches on; machine numbers are modelled as
`Int` (all arithmetic here is small-integer and overflow-free).
-/

namespace EuroAlt

/-- A documented concern attached to an entry; `severity` is the string the
scoring switch branches on ("minor" / "moderate" / "major", anything else
falling to the default branch). -/
structure Reservation where
  id : String
  text : String
  severity : String
deriving DecidableEq

/-- One US vendor comparison attached to an entry (types/index.ts
`USVendorComparison`); `trustScore = none` models an absent/undefined field. -/
structure USVendorComparison where
  id : String
  name : String
  trustScoreStatus : String
  trustScore : Option Int := none
  reservations : Option (List Reservation) := none
deriving DecidableEq

/-- A catalogue entry (types/index.ts `Alternative`), restricted to the fields
the score engine, the query pipeline and the validation tool read. Optional
TypeScript fields are `Option`s, `none` modelling an absent field. -/
structure Alternative where
  id : String
  name : String
  description : String
  country : String
  category : String
  replacesUS : List String
  usVendorComparisons : Option (List USVendorComparison) := none
  isOpenSource : Bool
  openSourceLevel : Option String := none
  pricing : String
  selfHostable : Option Bool := none
  tags : List String
  reservations : Option (List Reservation) := none
  trustScore : Option Int := none
deriving DecidableEq

/-- The score/breakdown record returned by `calculateTrustScore`
(trustScore.ts `CalculatedTrustScore`). -/
structure TrustScoreBreakdown where
  jurisdiction : Int
  openness : Int
  privacySignals : Int
  sovereigntyBonus : Int
  reservationPenalty : Int
  usCapApplied : Bool
deriving DecidableEq

structure CalculatedTrustScore where
  score : Int
  breakdown : TrustScoreBreakdown
deriving DecidableEq

/-- JavaScript `String.prototype.toLowerCase` (the same per-character case
mapping as `String.toLower`, defined structurally on the character list so
that it computes by kernel reduction). -/
def jsToLower (s : String) : String := String.mk (s.data.map Char.toLower)

/-- JavaScript `String.prototype.trim`: strip leading and trailing
whitespace. -/
def jsTrim (s : String) : String :=
  String.mk (((s.data.dropWhile Char.isWhitespace).reverse.dropWhile Char.isWhitespace).reverse)

/-- trustScore.ts `euMemberStates` (a `Set` in the source, a list here;
only membership is ever queried). -/
def euMemberStates : List String :=
  ["at", "be", "bg", "hr", "cy", "cz", "dk", "ee", "fi", "fr", "de", "gr", "hu", "ie", "it",
   "lv", "lt", "lu", "mt", "nl", "pl", "pt", "ro", "sk", "si", "es", "se"]

/-- trustScore.ts `europeanNonEU`. -/
def europeanNonEU : List String := ["ch", "no", "gb", "is"]

/-- trustScore.ts `privacyTagGroupPrimary`. -/
def privacyTagGroupPrimary : List String :=
  ["privacy", "gdpr", "encryption", "zero-knowledge", "no-logs"]

/-- trustScore.ts `privacyTagGroupSecondary`. -/
def privacyTagGroupSecondary : List String := ["offline", "federated", "local"]

/-- trustScore.ts `getJurisdictionScore`. -/
def getJurisdictionScore (country : String) : Int :=
  if euMemberStates.contains country then 4
  else if europeanNonEU.contains country then 3
  else if country = "eu" then 3
  else if country = "us" then 1
  else 2

/-- trustScore.ts `getOpennessScore`: the switch on `openSourceLevel`, whose
default branch (absent or unrecognized level) falls back to `isOpenSource`. -/
def getOpennessScore (alternative : Alternative) : Int :=
  match alternative.openSourceLevel with
  | some "full" => 3
  | some "partial" => 2
  | some "none" => 1
  | _ => if alternative.isOpenSource then 2 else 1

/-- trustScore.ts `getPrivacySignalScore`: tags are lower-cased, then each of
the two tag groups contributes `+1` if any member occurs among the
normalized tags. -/
def getPrivacySignalScore (tags : List String) : Int :=
  let normalized := tags.map jsToLower
  (if privacyTagGroupPrimary.any (fun tag => normalized.contains tag) then 1 else 0)
    + (if privacyTagGroupSecondary.any (fun tag => normalized.contains tag) then 1 else 0)

/-- trustScore.ts `getSovereigntyScore`. -/
def getSovereigntyScore (selfHostable : Bool) : Int :=
  if selfHostable then 2 else 0

/-- trustScore.ts `getReservationPenalty`: severity weights 3/2/1, the
default branch sharing the "minor" weight 1. -/
def getReservationPenalty (reservations : List Reservation) : Int :=
  reservations.foldl
    (fun sum reservation =>
      match reservation.severity with
      | "major" => sum + 3
      | "moderate" => sum + 2
      | _ => sum + 1)
    0

/-- trustScore.ts `clampScore`. -/
def clampScore (value : Int) : Int :=
  min 10 (max 1 value)

/-- trustScore.ts `calculateTrustScore`: combine the five sub-scores, clamp
to [1, 10], then apply the US ceiling rule. -/
def calculateTrustScore (alternative : Alternative) : CalculatedTrustScore :=
  let jurisdiction := getJurisdictionScore alternative.country
  let openness := getOpennessScore alternative
  let privacySignals := getPrivacySignalScore alternative.tags
  let sovereigntyBonus := getSovereigntyScore (alternative.selfHostable.getD false)
  let reservationPenalty := getReservationPenalty (alternative.reservations.getD [])
  let rawScore := jurisdiction + openness + privacySignals + sovereigntyBonus - reservationPenalty
  let clampedScore := clampScore rawScore
  let selfHostable := alternative.selfHostable.getD false
  let usCapApplied := alternative.country == "us" && !selfHostable && decide (4 < clampedScore)
  let score := if usCapApplied then 4 else clampedScore
  { score := score
    breakdown :=
      { jurisdiction := jurisdiction
        openness := openness
        privacySignals := privacySignals
        sovereigntyBonus := sovereigntyBonus
        reservationPenalty := reservationPenalty
        usCapApplied := usCapApplied } }

/-- trustScore.ts `getEffectiveTrustScore`: a precomputed `trustScore`
short-circuits the whole formula. -/
def getEffectiveTrustScore (alternative : Alternative) : Int :=
  match alternative.trustScore with
  | some value => value
  | none => (calculateTrustScore alternative).score

/-- The raw (pre-clamp) combination, read back from a breakdown. -/
def rawOfBreakdown (b : TrustScoreBreakdown) : Int :=
  b.jurisdiction + b.openness + b.privacySignals + b.sovereigntyBonus - b.reservationPenalty

/-- The sort keys of types/index.ts `SortBy`. -/
inductive SortBy where
  | trustScore
  | name
  | country
  | category
deriving DecidableEq

/-- The filter state of types/index.ts `SelectedFilters` (category, country and
pricing as plain string lists, as the runtime membership tests see them). -/
structure SelectedFilters where
  category : List String
  country : List String
  pricing : List String
  openSourceOnly : Bool
deriving DecidableEq

/-- JavaScript `haystack.includes(needle)`: substring occurrence. -/
def strIncludes (haystack needle : String) : Bool :=
  decide (needle.toList <:+: haystack.toList)

/-- The search predicate of BrowsePage `filteredAlternatives`: `term` is the
already lower-cased search term, matched against the lower-cased name,
description, replaced US products and tags. -/
def matchesSearchTerm (term : String) (alt : Alternative) : Bool :=
  strIncludes (jsToLower alt.name) term
    || strIncludes (jsToLower alt.description) term
    || alt.replacesUS.any (fun r => strIncludes (jsToLower r) term)
    || alt.tags.any (fun t => strIncludes (jsToLower t) term)

/-- The search stage of `filteredAlternatives`: active exactly when the
trimmed term is non-empty, and matching on the lower-cased untrimmed term. -/
def searchStep (searchTerm : String) (result : List Alternative) : List Alternative :=
  if jsTrim searchTerm ≠ "" then
    result.filter (matchesSearchTerm (jsToLower searchTerm))
  else result

/-- The category filter stage of `filteredAlternatives`. -/
def categoryStep (selectedFilters : SelectedFilters) (result : List Alternative) :
    List Alternative :=
  if 0 < selectedFilters.category.length then
    result.filter (fun alt => selectedFilters.category.contains alt.category)
  else result

/-- The country filter stage of `filteredAlternatives`. -/
def countryStep (selectedFilters : SelectedFilters) (result : List Alternative) :
    List Alternative :=
  if 0 < selectedFilters.country.length then
    result.filter (fun alt => selectedFilters.country.contains alt.country)
  else result

/-- The pricing filter stage of `filteredAlternatives`. -/
def pricingStep (selectedFilters : SelectedFilters) (result : List Alternative) :
    List Alternative :=
  if 0 < selectedFilters.pricing.length then
    result.filter (fun alt => selectedFilters.pricing.contains alt.pricing)
  else result

/-- The open-source-only filter stage of `filteredAlternatives`. -/
def openSourceStep (selectedFilters : SelectedFilters) (result : List Alternative) :
    List Alternative :=
  if selectedFilters.openSourceOnly then
    result.filter (fun alt => alt.isOpenSource)
  else result

/-- All five filter stages of `filteredAlternatives`, in source order. -/
def applyFilters (searchTerm : String) (selectedFilters : SelectedFilters)
    (alternatives : List Alternative) : List Alternative :=
  openSourceStep selectedFilters
    (pricingStep selectedFilters
      (countryStep selectedFilters
        (categoryStep selectedFilters
          (searchStep searchTerm alternatives))))

/-- The comparator of the `result.sort` call in `filteredAlternatives`,
parameterized by `lc`, the platform's `String.prototype.localeCompare`.
The switch handles name/country/category; every other key (in particular
`trustScore`) falls to the `default` branch returning 0. -/
def sortComparator (lc : String → String → Int) (sortBy : SortBy)
    (a b : Alternative) : Int :=
  match sortBy with
  | .name => lc a.name b.name
  | .country => lc a.country b.country
  | .category => lc a.category b.category
  | _ => 0

/-- BrowsePage `filteredAlternatives`: the five filter stages followed by a
stable sort (ECMAScript `Array.prototype.sort` is stable) under the
comparator chosen by `sortBy`. -/
def filteredAlternatives (lc : String → String → Int) (alternatives : List Alternative)
    (searchTerm : String) (selectedFilters : SelectedFilters) (sortBy : SortBy) :
    List Alternative :=
  (applyFilters searchTerm selectedFilters alternatives).mergeSort
    (fun a b => decide (sortComparator lc sortBy a b ≤ 0))

/-- The result record of the validation tool
(scripts/validate-us-vendor-comparisons.cjs `validateUSVendorComparisons`). -/
structure ValidationResult where
  failures : List String
  comparedVendors : Nat
deriving DecidableEq

/-- JavaScript `typeof vendor.trustScore` under the `Option Int` model. -/
def typeofTrustScore : Option Int → String
  | Option.none => "undefined"
  | some _ => "number"

/-- The per-vendor checks of the validation tool's inner loop, in source
order: invalid name, unexpected status, ready without a numeric score,
pending with a score. -/
def vendorChecks (altId : String) (vendor : USVendorComparison) : List String :=
  (if vendor.name = "" then [altId ++ ": vendor entry has an invalid name."] else [])
    ++ (if vendor.trustScoreStatus ≠ "pending" ∧ vendor.trustScoreStatus ≠ "ready" then
          [altId ++ ":" ++ vendor.id ++ " has trustScoreStatus=\"" ++ vendor.trustScoreStatus
            ++ "\" (expected \"pending\" or \"ready\")."]
        else [])
    ++ (if vendor.trustScoreStatus = "ready" ∧ vendor.trustScore = Option.none then
          [altId ++ ":" ++ vendor.id ++ " has trustScoreStatus=\"ready\" but trustScore is "
            ++ "not a number (got " ++ typeofTrustScore vendor.trustScore ++ ")."]
        else [])
    ++ (if vendor.trustScoreStatus = "pending" ∧ vendor.trustScore ≠ Option.none then
          [altId ++ ":" ++ vendor.id ++ " has trustScoreStatus=\"pending\" but unexpectedly "
            ++ "has a trustScore value."]
        else [])

/-- The vendor loop of the validation tool, carrying the `seenIds` set (a
list here; only membership and insertion are used) for duplicate detection. -/
def vendorLoop (altId : String) (seenIds : List String) :
    List USVendorComparison → List String
  | [] => []
  | vendor :: rest =>
    let dupFailure :=
      if seenIds.contains vendor.id then
        [altId ++ ": duplicate vendor id \"" ++ vendor.id ++ "\" in usVendorComparisons."]
      else []
    let seenIds' := if seenIds.contains vendor.id then seenIds else vendor.id :: seenIds
    vendorChecks altId vendor ++ dupFailure ++ vendorLoop altId seenIds' rest

/-- The per-entry body of the validation tool's outer loop: a non-empty
`replacesUS` with no comparisons is one failure (the `continue` path);
otherwise the vendor loop runs over the comparisons. -/
def entryFailures (alternative : Alternative) : List String :=
  let comparisons := alternative.usVendorComparisons.getD []
  if 0 < alternative.replacesUS.length ∧ comparisons.length = 0 then
    [alternative.id ++ ": missing usVendorComparisons despite replacesUS entries."]
  else vendorLoop alternative.id [] comparisons

/-- scripts/validate-us-vendor-comparisons.cjs `validateUSVendorComparisons`:
accumulate every entry's failures (never fail-fast) and count the vendors
iterated. -/
def validateUSVendorComparisons (alternatives : List Alternative) : ValidationResult :=
  { failures := (alternatives.map entryFailures).flatten
    comparedVendors :=
      (alternatives.map (fun a => (a.usVendorComparisons.getD []).length)).sum }

/-- The tool's driver: `process.exit(1)` when any failure exists, otherwise a
normal (zero) exit. -/
def validationExitCode (alternatives : List Alternative) : Nat :=
  if 0 < (validateUSVendorComparisons alternatives).failures.length then 1 else 0

/-- Specification predicate (for the statements about the validation tool):
the conditions under which the tool's per-vendor checks report a failure. -/
def vendorViolation (vendor : USVendorComparison) : Prop :=
  vendor.name = ""
    ∨ (vendor.trustScoreStatus ≠ "pending" ∧ vendor.trustScoreStatus ≠ "ready")
    ∨ (vendor.trustScoreStatus = "ready" ∧ vendor.trustScore = Option.none)
    ∨ (vendor.trustScoreStatus = "pending" ∧ vendor.trustScore ≠ Option.none)

/-- Specification predicate: the conditions under which the tool reports at
least one failure for a single entry. -/
def entryViolation (a : Alternative) : Prop :=
  (a.replacesUS ≠ [] ∧ a.usVendorComparisons.getD [] = [])
    ∨ (∃ v ∈ a.usVendorComparisons.getD [], vendorViolation v)
    ∨ ¬ ((a.usVendorComparisons.getD []).map USVendorComparison.id).Nodup

/-- A concrete three-way string comparator (a stand-in for a specific locale's
`localeCompare` in closed instances; the generic theorems quantify over the
comparator). -/
def cmpStr (x y : String) : Int :=
  if x < y then -1 else if x = y then 0 else 1

/-- Fixture: an entry with a curated `trustScore` of 7 whose derived formula
score would be capped at 4 (US jurisdiction, not self-hostable). -/
def demoOverride : Alternative :=
  { id := "override", name := "Override", description := "d", country := "us",
    category := "email", replacesUS := [], isOpenSource := true,
    openSourceLevel := some "full", pricing := "free", selfHostable := some false,
    tags := ["privacy", "federated"], trustScore := some 7 }

/-- Fixture: a US entry with no `selfHostable` and no `reservations` fields
whose raw score exceeds 4. -/
def demoUS : Alternative :=
  { id := "us-demo", name := "US Demo", description := "d", country := "us",
    category := "email", replacesUS := [], isOpenSource := true,
    openSourceLevel := some "full", pricing := "free",
    tags := ["privacy", "federated"] }

/-- Fixture: an entry whose description contains "Email". -/
def mailEntry : Alternative :=
  { id := "tuta", name := "Tuta", description := "Secure Email service",
    country := "de", category := "email", replacesUS := ["Gmail"],
    isOpenSource := true, pricing := "freemium", tags := ["encryption"] }

/-- Fixture: an entry matching no search nor open-source filter. -/
def mapsEntry : Alternative :=
  { id := "maps", name := "Magic Earth", description := "Privacy maps app",
    country := "nl", category := "maps", replacesUS := ["Google Maps"],
    isOpenSource := false, pricing := "free", tags := ["maps"] }

/-- Fixture entries with precomputed trust scores 5, 9 and 1, listed in a
catalogue order that is neither ascending nor descending by score. -/
def entryScore5 : Alternative :=
  { id := "e5", name := "Alpha", description := "d", country := "de",
    category := "email", replacesUS := [], isOpenSource := true,
    pricing := "free", tags := [], trustScore := some 5 }

def entryScore9 : Alternative :=
  { id := "e9", name := "Bravo", description := "d", country := "fr",
    category := "maps", replacesUS := [], isOpenSource := true,
    pricing := "free", tags := [], trustScore := some 9 }

def entryScore1 : Alternative :=
  { id := "e1", name := "Cedar", description := "d", country := "nl",
    category := "vpn", replacesUS := [], isOpenSource := true,
    pricing := "free", tags := [], trustScore := some 1 }

/-- Fixture: no active filters. -/
def noFilters : SelectedFilters :=
  { category := [], country := [], pricing := [], openSourceOnly := false }

/-- Fixture: only the open-source-only filter active. -/
def openOnlyFilters : SelectedFilters :=
  { category := [], country := [], pricing := [], openSourceOnly := true }

/-- Fixture: an entry whose single vendor comparison is "ready" with a numeric
score but an empty reservation list. -/
def readyNoReservations : Alternative :=
  { id := "acme", name := "Acme", description := "d", country := "de",
    category := "email", replacesUS := ["X"],
    usVendorComparisons := some
      [{ id := "x", name := "X Corp", trustScoreStatus := "ready",
         trustScore := some 5, reservations := some [] }],
    isOpenSource := true, pricing := "free", tags := [] }

/-- Fixture: an entry with two vendor comparisons sharing the same id. -/
def dupVendor : Alternative :=
  { id := "dup", name := "Dup", description := "d", country := "de",
    category := "email", replacesUS := ["Y"],
    usVendorComparisons := some
      [{ id := "y", name := "Y Corp", trustScoreStatus := "pending" },
       { id := "y", name := "Y Corp Again", trustScoreStatus := "pending" }],
    isOpenSource := true, pricing := "free", tags := [] }

/-! Theorems. -/

theorem clampScore_bounds (v : Int) : 1 ≤ clampScore v ∧ clampScore v ≤ 10 := by
  unfold clampScore
  omega

theorem calculateTrustScore_score_eq (a : Alternative) :
    (calculateTrustScore a).score =
      (if (calculateTrustScore a).breakdown.usCapApplied then 4
       else clampScore (rawOfBreakdown (calculateTrustScore a).breakdown)) := by
  rfl

/-- Claim C1: for every entry, `calculateTrustScore` returns a score in the
closed integer range [1, 10], equal to the clamp of
`jurisdiction + openness + privacySignals + sovereigntyBonus - reservationPenalty`
to [1, 10] except when the US ceiling forces it to 4 (which also lies in the
range). -/
theorem trustScore_range_and_clamp (a : Alternative) :
    (1 ≤ (calculateTrustScore a).score ∧ (calculateTrustScore a).score ≤ 10)
    ∧ (calculateTrustScore a).score =
        (if (calculateTrustScore a).breakdown.usCapApplied then 4
         else clampScore (rawOfBreakdown (calculateTrustScore a).breakdown)) := by
  refine ⟨?_, calculateTrustScore_score_eq a⟩
  rw [calculateTrustScore_score_eq a]
  split
  · omega
  · exact ⟨(clampScore_bounds _).1, (clampScore_bounds _).2⟩

theorem usCapApplied_eq (a : Alternative) :
    (calculateTrustScore a).breakdown.usCapApplied =
      (a.country == "us" && !(a.selfHostable.getD false)
        && decide (4 < clampScore (rawOfBreakdown (calculateTrustScore a).breakdown))) := by
  rfl

/-- Claim C2: a US-jurisdiction, non-self-hostable entry whose raw score
exceeds 4 gets final score exactly 4 with `usCapApplied = true`; and the flag
is true exactly when the rule's condition held and the clamped score
exceeds 4. -/
theorem usCeiling_rule (a : Alternative) :
    ((a.country = "us" ∧ a.selfHostable.getD false = false ∧
        4 < rawOfBreakdown (calculateTrustScore a).breakdown) →
      (calculateTrustScore a).score = 4 ∧
        (calculateTrustScore a).breakdown.usCapApplied = true)
    ∧ ((calculateTrustScore a).breakdown.usCapApplied = true ↔
        (a.country = "us" ∧ a.selfHostable.getD false = false ∧
          4 < clampScore (rawOfBreakdown (calculateTrustScore a).breakdown))) := by
  have hiff : (calculateTrustScore a).breakdown.usCapApplied = true ↔
      (a.country = "us" ∧ a.selfHostable.getD false = false ∧
        4 < clampScore (rawOfBreakdown (calculateTrustScore a).breakdown)) := by
    rw [usCapApplied_eq a]
    simp [Bool.and_eq_true, Bool.not_eq_true', and_assoc]
  refine ⟨?_, hiff⟩
  rintro ⟨h1, h2, h3⟩
  have hclamp : 4 < clampScore (rawOfBreakdown (calculateTrustScore a).breakdown) := by
    unfold clampScore
    omega
  have hcap := hiff.mpr ⟨h1, h2, hclamp⟩
  refine ⟨?_, hcap⟩
  rw [calculateTrustScore_score_eq a, hcap]
  simp

/-- Witness for C2: a concrete US, non-self-hostable entry with raw score 6 is
capped at 4 with the flag set. -/
theorem usCeiling_rule_witness :
    (calculateTrustScore demoUS).score = 4 ∧
      (calculateTrustScore demoUS).breakdown.usCapApplied = true :=
  (usCeiling_rule demoUS).1 ⟨rfl, rfl, by decide⟩

/-- Claim C3: a set (non-null) `trustScore` field is returned unchanged by
`getEffectiveTrustScore`, bypassing the formula; an absent one falls back to
`calculateTrustScore`. -/
theorem effectiveTrustScore_override (a : Alternative) :
    (∀ v : Int, a.trustScore = some v → getEffectiveTrustScore a = v)
    ∧ (a.trustScore = Option.none →
        getEffectiveTrustScore a = (calculateTrustScore a).score) := by
  constructor
  · intro v hv
    simp [getEffectiveTrustScore, hv]
  · intro hv
    simp [getEffectiveTrustScore, hv]

/-- Witness for C3: a curated score of 7 on a US entry is returned as 7 even
though the formula (with the US ceiling) would yield 4. -/
theorem effectiveTrustScore_override_witness :
    getEffectiveTrustScore demoOverride = 7 ∧ (calculateTrustScore demoOverride).score = 4 :=
  ⟨(effectiveTrustScore_override demoOverride).1 7 rfl, by decide⟩

/-- Claim C10: an absent `selfHostable` field is treated as false (sovereignty
bonus 0, and a US entry remains subject to the ceiling cap), and an absent
`reservations` list gives penalty 0. -/
theorem absent_optional_fields_default (a : Alternative) :
    (a.selfHostable = Option.none →
      (calculateTrustScore a).breakdown.sovereigntyBonus = 0 ∧
      (a.country = "us" →
        4 < clampScore (rawOfBreakdown (calculateTrustScore a).breakdown) →
        (calculateTrustScore a).score = 4 ∧
          (calculateTrustScore a).breakdown.usCapApplied = true))
    ∧ (a.reservations = Option.none →
        (calculateTrustScore a).breakdown.reservationPenalty = 0) := by
  constructor
  · intro hsh
    constructor
    · show getSovereigntyScore (a.selfHostable.getD false) = 0
      rw [hsh]
      rfl
    · intro hus hclamp
      have hcap : (calculateTrustScore a).breakdown.usCapApplied = true := by
        rw [usCapApplied_eq a]
        simp [hus, hsh, hclamp]
      refine ⟨?_, hcap⟩
      rw [calculateTrustScore_score_eq a, hcap]
      simp
  · intro hres
    show getReservationPenalty (a.reservations.getD []) = 0
    rw [hres]
    rfl

/-- Witness for C10: the fixture with absent `selfHostable` and `reservations`
has sovereignty bonus 0, penalty 0, and is still capped at 4. -/
theorem absent_optional_fields_default_witness :
    (calculateTrustScore demoUS).breakdown.sovereigntyBonus = 0 ∧
      (calculateTrustScore demoUS).score = 4 ∧
      (calculateTrustScore demoUS).breakdown.reservationPenalty = 0 := by
  have h := absent_optional_fields_default demoUS
  have h1 := h.1 rfl
  exact ⟨h1.1, (h1.2 rfl (by decide)).1, h.2 rfl⟩

/-- Claim C8: the jurisdiction score is the fixed closed lookup: EU members 4,
the closed European non-EU set 3, the meta code "eu" 3, "us" 1, anything
else 2. -/
theorem getJurisdictionScore_spec :
    (∀ c ∈ euMemberStates, getJurisdictionScore c = 4)
    ∧ (∀ c ∈ europeanNonEU, getJurisdictionScore c = 3)
    ∧ getJurisdictionScore "eu" = 3
    ∧ getJurisdictionScore "us" = 1
    ∧ (∀ c, c ∉ euMemberStates → c ∉ europeanNonEU → c ≠ "eu" → c ≠ "us" →
        getJurisdictionScore c = 2) := by
  refine ⟨by decide, by decide, by decide, by decide, ?_⟩
  intro c h1 h2 h3 h4
  simp [getJurisdictionScore, List.contains, h1, h2, h3, h4]

/-- Witness for C8: concrete codes from each bucket. -/
theorem getJurisdictionScore_spec_witness :
    getJurisdictionScore "de" = 4 ∧ getJurisdictionScore "ch" = 3 ∧
      getJurisdictionScore "ca" = 2 :=
  ⟨getJurisdictionScore_spec.1 "de" (by decide),
   getJurisdictionScore_spec.2.1 "ch" (by decide),
   getJurisdictionScore_spec.2.2.2.2 "ca" (by decide) (by decide) (by decide) (by decide)⟩

/-- Claim C7: the privacy-signal score is the sum of two indicators — one
per tag group — so it is at most 2, and multiple matches in the same group
add nothing: all five primary tags score the same 1 as a single one. -/
theorem privacySignal_spec (tags : List String) :
    getPrivacySignalScore tags =
      (if ∃ t ∈ tags, jsToLower t ∈ privacyTagGroupPrimary then 1 else 0)
        + (if ∃ t ∈ tags, jsToLower t ∈ privacyTagGroupSecondary then 1 else 0)
    ∧ getPrivacySignalScore tags ≤ 2
    ∧ getPrivacySignalScore ["privacy", "gdpr", "encryption", "zero-knowledge", "no-logs"] = 1
    ∧ getPrivacySignalScore ["privacy"] = 1 := by
  have key : ∀ group : List String,
      ((group.any fun tag => (tags.map jsToLower).contains tag) = true) ↔
        ∃ t ∈ tags, jsToLower t ∈ group := by
    intro group
    simp only [List.any_eq_true, List.contains, List.elem_eq_mem, List.mem_map,
      decide_eq_true_eq]
    constructor
    · rintro ⟨g, hg, t, ht, rfl⟩
      exact ⟨t, ht, hg⟩
    · rintro ⟨t, ht, hg⟩
      exact ⟨jsToLower t, hg, t, ht, rfl⟩
  have hchar : getPrivacySignalScore tags =
      (if ∃ t ∈ tags, jsToLower t ∈ privacyTagGroupPrimary then 1 else 0)
        + (if ∃ t ∈ tags, jsToLower t ∈ privacyTagGroupSecondary then 1 else 0) := by
    unfold getPrivacySignalScore
    dsimp only
    rw [if_congr (key privacyTagGroupPrimary) rfl rfl,
      if_congr (key privacyTagGroupSecondary) rfl rfl]
  refine ⟨hchar, ?_, by decide, by decide⟩
  rw [hchar]
  split <;> split <;> norm_num

theorem matchesSearchTerm_iff (term : String) (e : Alternative) :
    matchesSearchTerm (jsToLower term) e = true ↔
      ((jsToLower term).toList <:+: (jsToLower e.name).toList
        ∨ (jsToLower term).toList <:+: (jsToLower e.description).toList
        ∨ (∃ r ∈ e.replacesUS, (jsToLower term).toList <:+: (jsToLower r).toList)
        ∨ (∃ t ∈ e.tags, (jsToLower term).toList <:+: (jsToLower t).toList)) := by
  simp [matchesSearchTerm, strIncludes, List.any_eq_true, or_assoc]

/-- Claim C5: a term that is non-empty after trimming filters to exactly the
entries where the (lower-cased, untrimmed) term occurs as a substring of the
lower-cased name, description, some replaced US product, or some tag; a
whitespace-only term leaves the list unchanged. -/
theorem searchStep_spec (searchTerm : String) (l : List Alternative) :
    (jsTrim searchTerm ≠ "" →
      searchStep searchTerm l = l.filter (matchesSearchTerm (jsToLower searchTerm))
        ∧ ∀ e, e ∈ searchStep searchTerm l ↔ e ∈ l ∧
            ((jsToLower searchTerm).toList <:+: (jsToLower e.name).toList
              ∨ (jsToLower searchTerm).toList <:+: (jsToLower e.description).toList
              ∨ (∃ r ∈ e.replacesUS, (jsToLower searchTerm).toList <:+: (jsToLower r).toList)
              ∨ (∃ t ∈ e.tags, (jsToLower searchTerm).toList <:+: (jsToLower t).toList)))
    ∧ (jsTrim searchTerm = "" → searchStep searchTerm l = l) := by
  constructor
  · intro h
    have hstep : searchStep searchTerm l = l.filter (matchesSearchTerm (jsToLower searchTerm)) := by
      simp [searchStep, h]
    refine ⟨hstep, ?_⟩
    intro e
    rw [hstep, List.mem_filter, matchesSearchTerm_iff]
  · intro h
    simp [searchStep, h]

/-- Witness for C5: the term "mail" keeps the entry whose description contains
"Email" and drops the one that matches nowhere. -/
theorem searchStep_spec_witness :
    mailEntry ∈ searchStep "mail" [mailEntry, mapsEntry]
      ∧ searchStep "mail" [mailEntry, mapsEntry] = [mailEntry] :=
  ⟨(((searchStep_spec "mail" [mailEntry, mapsEntry]).1 (by decide)).2 mailEntry).mpr
      ⟨by simp, Or.inr (Or.inl (by decide))⟩,
   by decide⟩

theorem mem_ite_filter {α : Type} {p : α → Bool} {c : Prop} [Decidable c]
    (l : List α) (e : α) :
    e ∈ (if c then l.filter p else l) ↔ e ∈ l ∧ (c → p e = true) := by
  split
  · rename_i hc
    rw [List.mem_filter]
    exact ⟨fun ⟨h1, h2⟩ => ⟨h1, fun _ => h2⟩, fun ⟨h1, h2⟩ => ⟨h1, h2 hc⟩⟩
  · rename_i hc
    exact ⟨fun h => ⟨h, fun hcc => absurd hcc hc⟩, fun ⟨h, _⟩ => h⟩

theorem mem_searchStep (searchTerm : String) (l : List Alternative) (e : Alternative) :
    e ∈ searchStep searchTerm l ↔
      e ∈ l ∧ (jsTrim searchTerm ≠ "" → matchesSearchTerm (jsToLower searchTerm) e = true) := by
  unfold searchStep
  exact mem_ite_filter l e

theorem mem_categoryStep (sel : SelectedFilters) (l : List Alternative) (e : Alternative) :
    e ∈ categoryStep sel l ↔
      e ∈ l ∧ (sel.category ≠ [] → sel.category.contains e.category = true) := by
  unfold categoryStep
  rw [mem_ite_filter l e]
  rw [List.length_pos]

theorem mem_countryStep (sel : SelectedFilters) (l : List Alternative) (e : Alternative) :
    e ∈ countryStep sel l ↔
      e ∈ l ∧ (sel.country ≠ [] → sel.country.contains e.country = true) := by
  unfold countryStep
  rw [mem_ite_filter l e]
  rw [List.length_pos]

theorem mem_pricingStep (sel : SelectedFilters) (l : List Alternative) (e : Alternative) :
    e ∈ pricingStep sel l ↔
      e ∈ l ∧ (sel.pricing ≠ [] → sel.pricing.contains e.pricing = true) := by
  unfold pricingStep
  rw [mem_ite_filter l e]
  rw [List.length_pos]

theorem mem_openSourceStep (sel : SelectedFilters) (l : List Alternative) (e : Alternative) :
    e ∈ openSourceStep sel l ↔
      e ∈ l ∧ (sel.openSourceOnly = true → e.isOpenSource = true) := by
  unfold openSourceStep
  exact mem_ite_filter l e

theorem pairwise_of_all {α : Type} {R : α → α → Prop} (h : ∀ a b, R a b) :
    ∀ l : List α, l.Pairwise R
  | [] => .nil
  | a :: t => .cons (fun b _ => h a b) (pairwise_of_all h t)

theorem mergeSort_noop (lc : String → String → Int) (l : List Alternative) :
    l.mergeSort (fun a b => decide (sortComparator lc SortBy.trustScore a b ≤ 0)) = l :=
  List.mergeSort_of_sorted (pairwise_of_all (fun a b => by simp [sortComparator]) l)

theorem mem_applyFilters (searchTerm : String) (sel : SelectedFilters)
    (alternatives : List Alternative) (e : Alternative) :
    e ∈ applyFilters searchTerm sel alternatives ↔
      e ∈ alternatives
        ∧ (jsTrim searchTerm ≠ "" → matchesSearchTerm (jsToLower searchTerm) e = true)
        ∧ (sel.category ≠ [] → sel.category.contains e.category = true)
        ∧ (sel.country ≠ [] → sel.country.contains e.country = true)
        ∧ (sel.pricing ≠ [] → sel.pricing.contains e.pricing = true)
        ∧ (sel.openSourceOnly = true → e.isOpenSource = true) := by
  unfold applyFilters
  rw [mem_openSourceStep, mem_pricingStep, mem_countryStep, mem_categoryStep, mem_searchStep]
  tauto

/-- Claim C6: all active filters are conjunctive (membership iff every active
filter is satisfied); empty criteria yield the full catalogue (same content,
same length); with only open-source-only active every closed-source entry is
excluded, and the catalogue order of the rest is preserved when the sort key
has no comparator (the `default` branch). -/
theorem filter_pipeline_spec (lc : String → String → Int) (alternatives : List Alternative) :
    (∀ searchTerm sel sortBy e,
        e ∈ filteredAlternatives lc alternatives searchTerm sel sortBy ↔
          e ∈ alternatives
            ∧ (jsTrim searchTerm ≠ "" → matchesSearchTerm (jsToLower searchTerm) e = true)
            ∧ (sel.category ≠ [] → sel.category.contains e.category = true)
            ∧ (sel.country ≠ [] → sel.country.contains e.country = true)
            ∧ (sel.pricing ≠ [] → sel.pricing.contains e.pricing = true)
            ∧ (sel.openSourceOnly = true → e.isOpenSource = true))
    ∧ (∀ searchTerm sortBy, jsTrim searchTerm = "" →
        (filteredAlternatives lc alternatives searchTerm noFilters sortBy).Perm alternatives
          ∧ (filteredAlternatives lc alternatives searchTerm noFilters sortBy).length
              = alternatives.length)
    ∧ (∀ searchTerm, jsTrim searchTerm = "" →
        filteredAlternatives lc alternatives searchTerm openOnlyFilters SortBy.trustScore
            = alternatives.filter (fun alt => alt.isOpenSource)
          ∧ ∀ sortBy e,
              e ∈ filteredAlternatives lc alternatives searchTerm openOnlyFilters sortBy →
                e.isOpenSource = true) := by
  have hmem : ∀ searchTerm sel sortBy e,
      e ∈ filteredAlternatives lc alternatives searchTerm sel sortBy ↔
        e ∈ applyFilters searchTerm sel alternatives := by
    intro searchTerm sel sortBy e
    unfold filteredAlternatives
    exact (List.mergeSort_perm _ _).mem_iff
  refine ⟨?_, ?_, ?_⟩
  · intro searchTerm sel sortBy e
    rw [hmem, mem_applyFilters]
  · intro searchTerm sortBy h
    have happ : applyFilters searchTerm noFilters alternatives = alternatives := by
      simp [applyFilters, openSourceStep, pricingStep, countryStep, categoryStep,
        searchStep, noFilters, h]
    have hperm : (filteredAlternatives lc alternatives searchTerm noFilters sortBy).Perm
        alternatives := by
      unfold filteredAlternatives
      rw [happ]
      exact List.mergeSort_perm _ _
    exact ⟨hperm, hperm.length_eq⟩
  · intro searchTerm h
    have happ : applyFilters searchTerm openOnlyFilters alternatives
        = alternatives.filter (fun alt => alt.isOpenSource) := by
      simp [applyFilters, openSourceStep, pricingStep, countryStep, categoryStep,
        searchStep, openOnlyFilters, h]
    constructor
    · unfold filteredAlternatives
      rw [happ, mergeSort_noop]
    · intro sortBy e he
      rw [hmem, mem_applyFilters] at he
      exact he.2.2.2.2.2 rfl

/-- Witness for C6: on a concrete two-entry catalogue with only the
open-source filter active, the closed-source entry is dropped and order is
preserved. -/
theorem filter_pipeline_spec_witness :
    filteredAlternatives cmpStr [mailEntry, mapsEntry] "" openOnlyFilters SortBy.trustScore
        = [mailEntry]
      ∧ (filteredAlternatives cmpStr [mailEntry, mapsEntry] " " noFilters SortBy.name).length
          = 2 := by
  constructor
  · rw [((filter_pipeline_spec cmpStr [mailEntry, mapsEntry]).2.2 "" (by decide)).1]
    decide
  · rw [((filter_pipeline_spec cmpStr [mailEntry, mapsEntry]).2.1 " " SortBy.name
      (by decide)).2]
    decide

theorem cmpStr_le_iff (x y : String) : cmpStr x y ≤ 0 ↔ x ≤ y := by
  unfold cmpStr
  rcases lt_trichotomy x y with h | h | h
  · rw [if_pos h]
    exact iff_of_true (by norm_num) h.le
  · rw [if_neg (by simp [h]), if_pos h]
    exact iff_of_true le_rfl h.le
  · rw [if_neg (not_lt_of_gt h), if_neg (fun he => absurd h (by simp [he]))]
    exact iff_of_false (by norm_num) (not_le_of_gt h)

theorem cmpStr_trans (x y z : String) (hxy : cmpStr x y ≤ 0) (hyz : cmpStr y z ≤ 0) :
    cmpStr x z ≤ 0 :=
  (cmpStr_le_iff x z).mpr (le_trans ((cmpStr_le_iff x y).mp hxy) ((cmpStr_le_iff y z).mp hyz))

theorem cmpStr_total (x y : String) : cmpStr x y ≤ 0 ∨ cmpStr y x ≤ 0 := by
  rcases le_total x y with h | h
  · exact Or.inl ((cmpStr_le_iff x y).mpr h)
  · exact Or.inr ((cmpStr_le_iff y x).mpr h)

/-- Claim C4 (amended): the pipeline sorts after all filters with a stable
merge sort; the comparator uses the locale comparison `lc` on the name,
country and category keys, any other key (in particular `trustScore`) hits
the `default` branch and leaves the relative order unchanged. -/
theorem sort_spec (lc : String → String → Int)
    (htrans : ∀ x y z : String, lc x y ≤ 0 → lc y z ≤ 0 → lc x z ≤ 0)
    (htotal : ∀ x y : String, lc x y ≤ 0 ∨ lc y x ≤ 0)
    (alternatives : List Alternative) (searchTerm : String) (sel : SelectedFilters) :
    (∀ sortBy, filteredAlternatives lc alternatives searchTerm sel sortBy =
        (applyFilters searchTerm sel alternatives).mergeSort
          (fun a b => decide (sortComparator lc sortBy a b ≤ 0)))
    ∧ (∀ sortBy, (filteredAlternatives lc alternatives searchTerm sel sortBy).Perm
        (applyFilters searchTerm sel alternatives))
    ∧ filteredAlternatives lc alternatives searchTerm sel SortBy.trustScore
        = applyFilters searchTerm sel alternatives
    ∧ (filteredAlternatives lc alternatives searchTerm sel SortBy.name).Pairwise
        (fun a b => lc a.name b.name ≤ 0)
    ∧ (filteredAlternatives lc alternatives searchTerm sel SortBy.country).Pairwise
        (fun a b => lc a.country b.country ≤ 0)
    ∧ (filteredAlternatives lc alternatives searchTerm sel SortBy.category).Pairwise
        (fun a b => lc a.category b.category ≤ 0)
    ∧ (∀ sortBy (a b : Alternative), sortComparator lc sortBy a b ≤ 0 →
        [a, b].Sublist (applyFilters searchTerm sel alternatives) →
        [a, b].Sublist (filteredAlternatives lc alternatives searchTerm sel sortBy)) := by
  have ktrans : ∀ sortBy (a b c : Alternative),
      decide (sortComparator lc sortBy a b ≤ 0) = true →
      decide (sortComparator lc sortBy b c ≤ 0) = true →
      decide (sortComparator lc sortBy a c ≤ 0) = true := by
    intro sortBy a b c hab hbc
    rw [decide_eq_true_eq] at hab hbc ⊢
    cases sortBy
    · exact hab.trans (by omega)
    · exact htrans _ _ _ hab hbc
    · exact htrans _ _ _ hab hbc
    · exact htrans _ _ _ hab hbc
  have ktotal : ∀ sortBy (a b : Alternative),
      (decide (sortComparator lc sortBy a b ≤ 0)
        || decide (sortComparator lc sortBy b a ≤ 0)) = true := by
    intro sortBy a b
    rw [Bool.or_eq_true, decide_eq_true_eq, decide_eq_true_eq]
    cases sortBy
    · exact Or.inl (by simp [sortComparator])
    · exact htotal _ _
    · exact htotal _ _
    · exact htotal _ _
  have hsorted : ∀ sortBy, (filteredAlternatives lc alternatives searchTerm sel sortBy).Pairwise
      (fun a b => sortComparator lc sortBy a b ≤ 0) := by
    intro sortBy
    have := @List.sorted_mergeSort Alternative
      (fun a b => decide (sortComparator lc sortBy a b ≤ 0))
      (ktrans sortBy) (ktotal sortBy) (applyFilters searchTerm sel alternatives)
    exact (this.imp (fun h => by rwa [decide_eq_true_eq] at h))
  refine ⟨fun _ => rfl, ?_, ?_, ?_, ?_, ?_, ?_⟩
  · intro sortBy
    exact List.mergeSort_perm _ _
  · unfold filteredAlternatives
    exact mergeSort_noop lc _
  · exact (hsorted SortBy.name).imp (fun h => h)
  · exact (hsorted SortBy.country).imp (fun h => h)
  · exact (hsorted SortBy.category).imp (fun h => h)
  · intro sortBy a b hab hsub
    exact List.pair_sublist_mergeSort (ktrans sortBy) (ktotal sortBy)
      (by rwa [decide_eq_true_eq]) hsub

/-- Witness for C4: with the concrete comparator, sorting the demo catalogue
by name yields a list pairwise ordered by the comparator on names, and the
trustScore key leaves the filtered list untouched. -/
theorem sort_spec_witness :
    (filteredAlternatives cmpStr [mailEntry, mapsEntry] "" noFilters SortBy.name).Pairwise
        (fun a b => cmpStr a.name b.name ≤ 0)
      ∧ filteredAlternatives cmpStr [entryScore5, entryScore9, entryScore1] "" noFilters
          SortBy.trustScore = applyFilters "" noFilters [entryScore5, entryScore9, entryScore1] :=
  ⟨(sort_spec cmpStr cmpStr_trans cmpStr_total [mailEntry, mapsEntry] "" noFilters).2.2.2.1,
   (sort_spec cmpStr cmpStr_trans cmpStr_total [entryScore5, entryScore9, entryScore1] ""
      noFilters).2.2.1⟩

/-- Counterexample for C4 as stated: with sort key `trustScore` the pipeline
returns the catalogue order unchanged — here 5, 9, 1 — which is neither
ascending nor descending by trust score, so no numeric comparison is
applied. -/
theorem sortByTrustScore_not_numeric :
    filteredAlternatives cmpStr [entryScore5, entryScore9, entryScore1] "" noFilters
        SortBy.trustScore = [entryScore5, entryScore9, entryScore1]
      ∧ getEffectiveTrustScore entryScore1 < getEffectiveTrustScore entryScore9
      ∧ getEffectiveTrustScore entryScore5 < getEffectiveTrustScore entryScore9 := by
  refine ⟨?_, by decide, by decide⟩
  unfold filteredAlternatives
  rw [mergeSort_noop]
  decide

theorem vendorChecks_eq_nil (altId : String) (vendor : USVendorComparison) :
    vendorChecks altId vendor = [] ↔ ¬ vendorViolation vendor := by
  unfold vendorChecks vendorViolation
  split_ifs with h1 h2 h3 h4 <;> simp_all

theorem vendorLoop_eq_nil (altId : String) (vs : List USVendorComparison) :
    ∀ seen : List String,
      vendorLoop altId seen vs = [] ↔
        ((∀ v ∈ vs, ¬ vendorViolation v)
          ∧ (vs.map USVendorComparison.id).Nodup
          ∧ ∀ v ∈ vs, v.id ∉ seen) := by
  induction vs with
  | nil =>
    intro seen
    simp [vendorLoop]
  | cons v rest ih =>
    intro seen
    by_cases hm : v.id ∈ seen
    · have hs : seen.contains v.id = true := by simp [List.contains, hm]
      unfold vendorLoop
      dsimp only
      rw [if_pos hs, if_pos hs]
      constructor
      · intro h
        exact absurd h (by simp)
      · rintro ⟨-, -, h3⟩
        exact absurd hm (h3 v (by simp))
    · unfold vendorLoop
      dsimp only
      rw [if_neg (by simp [List.contains]; exact hm), if_neg (by simp [List.contains]; exact hm)]
      rw [List.append_nil, List.append_eq_nil, vendorChecks_eq_nil, ih (v.id :: seen)]
      simp only [List.forall_mem_cons, List.map_cons, List.nodup_cons]
      simp only [List.mem_cons, not_or]
      constructor
      · rintro ⟨hv, hrest, hnodup, hnotin⟩
        refine ⟨⟨hv, hrest⟩, ⟨?_, hnodup⟩, hm, fun w hw => (hnotin w hw).2⟩
        intro hmem
        obtain ⟨w, hw, hid⟩ := List.mem_map.mp hmem
        exact (hnotin w hw).1 hid
      · rintro ⟨⟨hv, hrest⟩, ⟨hnomem, hnodup⟩, -, hnotin⟩
        exact ⟨hv, hrest, hnodup, fun w hw =>
          ⟨fun hid => hnomem (List.mem_map.mpr ⟨w, hw, hid⟩), hnotin w hw⟩⟩

theorem entryFailures_eq_nil (a : Alternative) :
    entryFailures a = [] ↔ ¬ entryViolation a := by
  unfold entryFailures entryViolation
  dsimp only
  by_cases hc : 0 < a.replacesUS.length ∧ (a.usVendorComparisons.getD []).length = 0
  · rw [if_pos hc]
    have hfirst : a.replacesUS ≠ [] ∧ a.usVendorComparisons.getD [] = [] := by
      constructor
      · exact List.ne_nil_of_length_pos hc.1
      · exact List.eq_nil_of_length_eq_zero hc.2
    simp [hfirst]
  · rw [if_neg hc]
    rw [vendorLoop_eq_nil]
    have hfirst : ¬ (a.replacesUS ≠ [] ∧ a.usVendorComparisons.getD [] = []) := by
      intro ⟨h1, h2⟩
      exact hc ⟨List.length_pos.mpr h1, by simp [h2]⟩
    simp only [not_or, hfirst, not_false_iff, true_and]
    constructor
    · rintro ⟨hv, hnodup, -⟩
      exact ⟨fun ⟨w, hw, hviol⟩ => hv w hw hviol, not_not_intro hnodup⟩
    · rintro ⟨hnoex, hnodup⟩
      exact ⟨fun w hw hviol => hnoex ⟨w, hw, hviol⟩, not_not.mp hnodup, fun w _ => List.not_mem_nil _⟩

/-- Claim C9 (amended): the validation tool accumulates failures over the
whole catalogue (never fail-fast), exits non-zero exactly when at least one
failure exists, and reports no failure exactly when no entry violates any of
its checks: non-empty replaces-US list without comparisons, invalid vendor
name, a status other than pending/ready, ready without a numeric score,
pending with a score, duplicate vendor id. (It does not require a ready
comparison to carry a reservation.) -/
theorem validation_tool_spec :
    (∀ xs ys : List Alternative,
        (validateUSVendorComparisons (xs ++ ys)).failures =
          (validateUSVendorComparisons xs).failures
            ++ (validateUSVendorComparisons ys).failures)
    ∧ (∀ alts, validationExitCode alts = 1 ↔
        (validateUSVendorComparisons alts).failures ≠ [])
    ∧ (∀ alts, (validateUSVendorComparisons alts).failures = [] ↔
        ∀ a ∈ alts, ¬ entryViolation a) := by
  refine ⟨?_, ?_, ?_⟩
  · intro xs ys
    simp [validateUSVendorComparisons]
  · intro alts
    unfold validationExitCode
    by_cases h : 0 < (validateUSVendorComparisons alts).failures.length
    · rw [if_pos h]
      exact iff_of_true rfl (List.ne_nil_of_length_pos h)
    · rw [if_neg h]
      have hnil : (validateUSVendorComparisons alts).failures = [] :=
        List.eq_nil_of_length_eq_zero (by omega)
      exact iff_of_false (by omega) (by simp [hnil])
  · intro alts
    simp only [validateUSVendorComparisons, List.flatten_eq_nil_iff, List.mem_map]
    constructor
    · rintro h a ha
      exact (entryFailures_eq_nil a).mp (h _ ⟨a, ha, rfl⟩)
    · rintro h l ⟨a, ha, rfl⟩
      exact (entryFailures_eq_nil a).mpr (h a ha)

/-- Witness for C9: a catalogue with a duplicate vendor id makes the tool
exit non-zero, and an empty catalogue exits zero. -/
theorem validation_tool_spec_witness :
    validationExitCode [dupVendor] = 1 ∧ validationExitCode [] = 0 :=
  ⟨(validation_tool_spec.2.1 [dupVendor]).mpr (by decide), by decide⟩

/-- Counterexample for C9 as stated: an entry whose only vendor comparison is
marked "ready" with a numeric score but zero reservations produces no failure
at all and a zero exit status, although the claim demands a failure for a
ready comparison lacking at least one reservation. -/
theorem readyWithoutReservations_no_failure :
    (validateUSVendorComparisons [readyNoReservations]).failures = []
      ∧ validationExitCode [readyNoReservations] = 0
      ∧ (readyNoReservations.usVendorComparisons.getD []).all
          (fun v => v.trustScoreStatus == "ready" && (v.reservations.getD []).isEmpty)
          = true := by
  refine ⟨by decide, by decide, by decide⟩

end EuroAlt
